import Mathlib

/-!
Shallow embedding of the match-unit core of `src/modules/bm_sim/src/match_units.cpp`
(Exact / LPM / Ternary match units with their versioned-handle control plane).

Bytes are modelled as `Nat` (values below 256), byte containers as `List Nat`,
the 32/64-bit machine integers as `Nat` with explicit `% 2^32` where overflow
matters.  The handle manager, the exact-match `std::unordered_map`, and the LPM
trie live in headers that are not part of the translated sources; they are
modelled from the specification (each such definition says so in its doc
comment).  Everything translated from `match_units.cpp` keeps the source's
structure, including the source's `HANDLE_INTERNAL` macro, which uses the C
logical AND `&&` rather than the bitwise `&`.
-/

namespace MatchUnits

/-- Error codes returned by control-plane operations (`MatchErrorCode` in the source). -/
inductive MatchErrorCode where
  | SUCCESS
  | TABLE_FULL
  | INVALID_HANDLE
  | EXPIRED_HANDLE
  | BAD_MATCH_KEY
  | ERROR
  deriving DecidableEq, Repr

open MatchErrorCode

/-- Match-key parameter kinds (`MatchKeyParam::Type` in the source). -/
inductive ParamType where
  | EXACT
  | LPM
  | TERNARY
  | VALID
  deriving DecidableEq, Repr

/-- A match-key parameter: a tagged byte string, with a mask (TERNARY) or a
prefix length in bits (LPM).  Mirrors `MatchKeyParam`. -/
structure MatchKeyParam where
  type : ParamType
  key : List Nat
  mask : List Nat
  prefix_length : Nat
  deriving DecidableEq, Repr

/-! ### Handle manager

Modelled from the spec (§4.1 HandleAllocator): the `HandleMgr` class is not in
the translated sources.  Liveness is a growable bitmap; `get_handle` reserves
the smallest free slot id; iteration yields live slots in increasing order
(a stable order, as the spec requires). -/

/-- Index of the first `false` in a liveness bitmap (the list's length when all
entries are `true`). -/
def firstFreeAux : List Bool → Nat
  | [] => 0
  | b :: rest => if b then firstFreeAux rest + 1 else 0

/-- Set index `i` of a bitmap to `b`, extending with `false` as needed. -/
def setIdx : List Bool → Nat → Bool → List Bool
  | [], 0, b => [b]
  | [], n + 1, b => false :: setIdx [] n b
  | _ :: rest, 0, b => b :: rest
  | x :: rest, n + 1, b => x :: setIdx rest n b

/-- Modelled from the spec (§4.1): the handle allocator's state, a liveness
bitmap over slot ids. -/
structure HandleMgr where
  live : List Bool
  deriving DecidableEq, Repr

/-- Modelled from the spec (§4.1 `acquire`): reserve the smallest free slot id.
Capacity is enforced by the caller (`get_and_set_handle`), so acquisition
itself always succeeds here. -/
def HandleMgr.get_handle (m : HandleMgr) : Nat × HandleMgr :=
  let h := firstFreeAux m.live
  (h, ⟨setIdx m.live h true⟩)

/-- Modelled from the spec (§4.1 `release`): free a reserved slot; `none` when
the slot was not reserved. -/
def HandleMgr.release_handle (m : HandleMgr) (h : Nat) : Option HandleMgr :=
  if m.live.getD h false then some ⟨setIdx m.live h false⟩ else none

/-- Modelled from the spec (§4.1 `is_live`). -/
def HandleMgr.valid_handle (m : HandleMgr) (h : Nat) : Bool :=
  m.live.getD h false

/-- Modelled from the spec (§4.1): iteration over live slots, in increasing
slot order. -/
def HandleMgr.iter (m : HandleMgr) : List Nat :=
  (List.range m.live.length).filter (fun i => m.live.getD i false)

/-! ### Handle codec (the source's macros, translated verbatim)

`#define HANDLE_VERSION(h) (h >> 32)`
`#define HANDLE_INTERNAL(h) (h && 0xffffffff)`   -- note: C logical AND
`#define HANDLE_SET(v, i) ((((uint64_t) v) << 32) | i)` -/

/-- `HANDLE_VERSION(h) = h >> 32`. -/
def HANDLE_VERSION (h : Nat) : Nat := h >>> 32

/-- `HANDLE_INTERNAL(h) = (h && 0xffffffff)`: the source uses the C logical
AND, which yields `1` when both operands are non-zero and `0` otherwise. -/
def HANDLE_INTERNAL (h : Nat) : Nat :=
  if h ≠ 0 ∧ (0xffffffff : Nat) ≠ 0 then 1 else 0

/-- `HANDLE_SET(v, i) = (((uint64_t) v) << 32) | i` where `v` is a `uint32_t`. -/
def HANDLE_SET (v i : Nat) : Nat :=
  Nat.lor ((v % 2 ^ 32) <<< 32) i

/-! ### Shared match-unit state (`MatchUnitAbstract`) -/

/-- The fields of `MatchUnitAbstract` shared by all variants: capacity, key
width in bytes, live-entry count, and the handle allocator. -/
structure MatchCore where
  size : Nat
  nbytes_key : Nat
  num_entries : Nat
  handles : HandleMgr
  deriving DecidableEq, Repr

/-- `MatchUnitAbstract::get_and_set_handle`: fail with `TABLE_FULL` when the
unit is at capacity, otherwise reserve a slot and bump `num_entries`.  (The
source's `ERROR` branch fires only when the allocator refuses a slot, which
the allocator model cannot do.) -/
def MatchCore.get_and_set_handle (c : MatchCore) :
    MatchErrorCode × Nat × MatchCore :=
  if c.num_entries ≥ c.size then (TABLE_FULL, 0, c)
  else
    let gh := c.handles.get_handle
    (SUCCESS, gh.1, { c with handles := gh.2, num_entries := c.num_entries + 1 })

/-- `MatchUnitAbstract::unset_handle`: release a slot and decrement
`num_entries`; `INVALID_HANDLE` when the slot was not reserved. -/
def MatchCore.unset_handle (c : MatchCore) (h : Nat) :
    MatchErrorCode × MatchCore :=
  match c.handles.release_handle h with
  | none => (INVALID_HANDLE, c)
  | some hm => (SUCCESS, { c with handles := hm, num_entries := c.num_entries - 1 })

/-- `MatchUnitAbstract::valid_handle_` (internal-handle arity). -/
def MatchCore.valid_handle_ (c : MatchCore) (h : Nat) : Bool :=
  c.handles.valid_handle h

/-- `MatchUnitAbstract::valid_handle` (public-handle arity): decodes via
`HANDLE_INTERNAL` and checks liveness only. -/
def MatchCore.valid_handle (c : MatchCore) (h : Nat) : Bool :=
  c.valid_handle_ (HANDLE_INTERNAL h)

/-! ### Key building

The `add_entry` loops of the three variants, translated as functions of the
parameter list.  The source's `assert(0 && "invalid param type ...")` cases
are modelled with their release-build behaviour (the parameter contributes
nothing); theorems that need well-typed parameter lists hypothesise them. -/

/-- First `add_entry` loop, shared by all variants: the key bytes of every
VALID parameter, in input order. -/
def validPass : List MatchKeyParam → List Nat
  | [] => []
  | p :: rest => (if p.type = ParamType.VALID then p.key else []) ++ validPass rest

/-- Second loop of `MatchUnitExact::add_entry`: EXACT bytes in input order;
VALID already done; other kinds assert in the source. -/
def exactSecondPass : List MatchKeyParam → List Nat
  | [] => []
  | p :: rest =>
    match p.type with
    | ParamType.EXACT => p.key ++ exactSecondPass rest
    | _ => exactSecondPass rest

/-- The canonical key built by `MatchUnitExact::add_entry`. -/
def exactNewKey (match_key : List MatchKeyParam) : List Nat :=
  validPass match_key ++ exactSecondPass match_key

/-- Second loop of `MatchUnitLPM::add_entry`: accumulates the EXACT key bytes,
the prefix-length counter (the source adds `param.key.size()` per EXACT
parameter), and the last LPM parameter seen (`lpm_param`). -/
def lpmLoop : List MatchKeyParam → List Nat × Nat × Option MatchKeyParam
  | [] => ([], 0, none)
  | p :: rest =>
    let r := lpmLoop rest
    match p.type with
    | ParamType.EXACT => (p.key ++ r.1, p.key.length + r.2.1, r.2.2)
    | ParamType.LPM => (r.1, r.2.1, match r.2.2 with | some q => some q | none => some p)
    | _ => r

/-- `create_mask_from_pref_len`: the first `prefix_length / 8` bytes are
`0xFF`; when `prefix_length % 8 ≠ 0` the next byte keeps its high-order
`prefix_length % 8` bits; the rest are `0x00`. -/
def create_mask_from_pref_len (prefix_length size : Nat) : List Nat :=
  (List.range size).map (fun i =>
    if i < prefix_length / 8 then 0xFF
    else if i = prefix_length / 8 ∧ prefix_length % 8 ≠ 0 then
      (0xFF <<< (8 - prefix_length % 8)) % 256
    else 0x00)

/-- First loop of `MatchUnitTernary::add_entry`: VALID key bytes in input
order, and one `0xff` mask byte per VALID parameter. -/
def ternaryValidLoop : List MatchKeyParam → List Nat × List Nat
  | [] => ([], [])
  | p :: rest =>
    let r := ternaryValidLoop rest
    if p.type = ParamType.VALID then (p.key ++ r.1, 0xFF :: r.2) else r

/-- Second loop of `MatchUnitTernary::add_entry`: key and mask bytes of the
non-VALID parameters, in input order. -/
def ternarySecondLoop : List MatchKeyParam → List Nat × List Nat
  | [] => ([], [])
  | p :: rest =>
    let r := ternarySecondLoop rest
    match p.type with
    | ParamType.EXACT => (p.key ++ r.1, List.replicate p.key.length 0xFF ++ r.2)
    | ParamType.LPM =>
      (p.key ++ r.1, create_mask_from_pref_len p.prefix_length p.key.length ++ r.2)
    | ParamType.TERNARY => (p.key ++ r.1, p.mask ++ r.2)
    | ParamType.VALID => r

/-- The canonical key built by `MatchUnitTernary::add_entry`. -/
def ternaryNewKey (match_key : List MatchKeyParam) : List Nat :=
  (ternaryValidLoop match_key).1 ++ (ternarySecondLoop match_key).1

/-- The mask built by `MatchUnitTernary::add_entry`. -/
def ternaryNewMask (match_key : List MatchKeyParam) : List Nat :=
  (ternaryValidLoop match_key).2 ++ (ternarySecondLoop match_key).2

/-- Definition following the spec's words (§4.2 ordering discipline), for
comparison with the builders translated from the source: emit the bytes of
every VALID parameter in input order, then the bytes of the remaining
parameters in input order. -/
def specValidFirstKey (match_key : List MatchKeyParam) : List Nat :=
  ((match_key.filter (fun p => p.type = ParamType.VALID)).flatMap (fun p => p.key))
    ++ ((match_key.filter (fun p => ¬ p.type = ParamType.VALID)).flatMap (fun p => p.key))

/-! ### Exact-match unit -/

/-- `MatchUnitExact::Entry`. -/
structure ExactEntry (V : Type) where
  key : List Nat
  value : V
  version : Nat
  deriving DecidableEq, Repr

instance {V : Type} [Inhabited V] : Inhabited (ExactEntry V) := ⟨⟨[], default, 0⟩⟩

/-- Modelled from the spec (§4.3): the `std::unordered_map` from key byte
string to slot id, as an association list.  Lookup finds the first binding. -/
def mapFind (m : List (List Nat × Nat)) (k : List Nat) : Option Nat :=
  match m with
  | [] => none
  | (k', v) :: rest => if k' = k then some v else mapFind rest k

/-- Modelled from the spec (§4.3): `map[k] = v` overwrites any previous
binding for `k`. -/
def mapInsert (m : List (List Nat × Nat)) (k : List Nat) (v : Nat) :
    List (List Nat × Nat) :=
  match m with
  | [] => [(k, v)]
  | (k', v') :: rest =>
    if k' = k then (k, v) :: rest else (k', v') :: mapInsert rest k v

/-- Modelled from the spec (§4.3): `map.erase(k)` removes the binding for `k`. -/
def mapErase (m : List (List Nat × Nat)) (k : List Nat) :
    List (List Nat × Nat) :=
  match m with
  | [] => []
  | (k', v') :: rest => if k' = k then rest else (k', v') :: mapErase rest k

/-- The exact-match unit: shared core, the dense entry vector, and the
key-to-slot map. -/
structure MatchUnitExact (V : Type) where
  core : MatchCore
  entries : List (ExactEntry V)
  entries_map : List (List Nat × Nat)
  deriving DecidableEq, Repr

namespace MatchUnitExact

variable {V : Type} [Inhabited V]

/-- `MatchUnitExact::lookup_key`: one map lookup; the returned handle is the
slot id stored in the map (`entry_it->second`). -/
def lookup_key (m : MatchUnitExact V) (key : List Nat) : Option (Nat × V) :=
  match mapFind m.entries_map key with
  | none => none
  | some slot => some (slot, (m.entries.getD slot default).value)

/-- `MatchUnitExact::add_entry`: build the canonical key (VALID pass, then
EXACT pass), reserve a slot, emit `HANDLE_SET(version, slot)`, overwrite the
map binding for the key, and store the entry. -/
def add_entry (m : MatchUnitExact V) (match_key : List MatchKeyParam) (value : V)
    (priority : Int) : MatchErrorCode × Nat × MatchUnitExact V :=
  let _ := priority
  let new_key := exactNewKey match_key
  let gs := m.core.get_and_set_handle
  if gs.1 ≠ SUCCESS then (gs.1, 0, m)
  else
    let handle_ := gs.2.1
    let version := (m.entries.getD handle_ default).version
    let handle := HANDLE_SET version handle_
    (SUCCESS, handle,
      { core := gs.2.2
        entries := m.entries.set handle_ ⟨new_key, value, version⟩
        entries_map := mapInsert m.entries_map new_key handle_ })

/-- `MatchUnitExact::delete_entry`: handle check via `HANDLE_INTERNAL` and the
version field, then bump the version, erase the map binding, release the
slot. -/
def delete_entry (m : MatchUnitExact V) (handle : Nat) :
    MatchErrorCode × MatchUnitExact V :=
  let handle_ := HANDLE_INTERNAL handle
  if m.core.valid_handle_ handle_ = false then (INVALID_HANDLE, m)
  else
    let entry := m.entries.getD handle_ default
    if HANDLE_VERSION handle ≠ entry.version then (EXPIRED_HANDLE, m)
    else
      let entries' := m.entries.set handle_ { entry with version := (entry.version + 1) % 2 ^ 32 }
      let map' := mapErase m.entries_map entry.key
      let us := m.core.unset_handle handle_
      (us.1, { core := us.2, entries := entries', entries_map := map' })

/-- `MatchUnitExact::modify_entry`: handle check, then replace the value. -/
def modify_entry (m : MatchUnitExact V) (handle : Nat) (value : V) :
    MatchErrorCode × MatchUnitExact V :=
  let handle_ := HANDLE_INTERNAL handle
  if m.core.valid_handle_ handle_ = false then (INVALID_HANDLE, m)
  else
    let entry := m.entries.getD handle_ default
    if HANDLE_VERSION handle ≠ entry.version then (EXPIRED_HANDLE, m)
    else
      (SUCCESS, { m with entries := m.entries.set handle_ { entry with value := value } })

/-- `MatchUnitExact::get_value`: handle check (this operation uses the public
`valid_handle`, as in the source), then read the value.  The unit state is
returned unchanged on every path. -/
def get_value (m : MatchUnitExact V) (handle : Nat) :
    MatchErrorCode × Option V × MatchUnitExact V :=
  let handle_ := HANDLE_INTERNAL handle
  if m.core.valid_handle handle_ = false then (INVALID_HANDLE, none, m)
  else
    let entry := m.entries.getD handle_ default
    if HANDLE_VERSION handle ≠ entry.version then (EXPIRED_HANDLE, none, m)
    else (SUCCESS, some entry.value, m)

end MatchUnitExact

/-! ### LPM unit -/

/-- `MatchUnitLPM::Entry`. -/
structure LPMEntry (V : Type) where
  key : List Nat
  prefix_length : Nat
  value : V
  version : Nat
  deriving DecidableEq, Repr

instance {V : Type} [Inhabited V] : Inhabited (LPMEntry V) := ⟨⟨[], 0, default, 0⟩⟩

/-- Modelled from the spec (§4.4): the LPM trie's bindings, as a list of
`(key bytes, prefix length in bits, slot)` triples. -/
abbrev LPMTrie := List (List Nat × Nat × Nat)

/-- Modelled from the spec (§4.4 `insert_prefix`): bind `(key, plen)` to
`slot`, replacing any previous binding at that node. -/
def trieInsert (t : LPMTrie) (key : List Nat) (plen slot : Nat) : LPMTrie :=
  match t with
  | [] => [(key, plen, slot)]
  | (k, p, s) :: rest =>
    if k = key ∧ p = plen then (key, plen, slot) :: rest
    else (k, p, s) :: trieInsert rest key plen slot

/-- Modelled from the spec (§4.4 `delete_prefix`): remove the binding at
`(key, plen)`.  The source asserts that the binding exists; removal of an
absent binding is the identity here. -/
def trieDelete (t : LPMTrie) (key : List Nat) (plen : Nat) : LPMTrie :=
  match t with
  | [] => []
  | (k, p, s) :: rest =>
    if k = key ∧ p = plen then rest else (k, p, s) :: trieDelete rest key plen

/-- The LPM unit: shared core, entry vector, and trie. -/
structure MatchUnitLPM (V : Type) where
  core : MatchCore
  entries : List (LPMEntry V)
  entries_trie : LPMTrie
  deriving DecidableEq

namespace MatchUnitLPM

variable {V : Type} [Inhabited V]

/-- `MatchUnitLPM::add_entry`: VALID pass, then the EXACT/LPM loop (the source
adds `param.key.size()` to `prefix_length` per EXACT parameter), append the
LPM parameter's bytes last and add its `prefix_length`.  `none` models the
failed `assert(lpm_param)` when no LPM parameter is present. -/
def add_entry (m : MatchUnitLPM V) (match_key : List MatchKeyParam) (value : V)
    (priority : Int) : Option (MatchErrorCode × Nat × MatchUnitLPM V) :=
  let _ := priority
  let lr := lpmLoop match_key
  match lr.2.2 with
  | none => none
  | some lpm_param =>
    let new_key := validPass match_key ++ lr.1 ++ lpm_param.key
    let prefix_length := lr.2.1 + lpm_param.prefix_length
    let gs := m.core.get_and_set_handle
    if gs.1 ≠ SUCCESS then some (gs.1, 0, m)
    else
      let handle_ := gs.2.1
      let version := (m.entries.getD handle_ default).version
      let handle := HANDLE_SET version handle_
      some (SUCCESS, handle,
        { core := gs.2.2
          entries := m.entries.set handle_ ⟨new_key, prefix_length, value, version⟩
          entries_trie := trieInsert m.entries_trie new_key prefix_length handle_ })

/-- `MatchUnitLPM::delete_entry`. -/
def delete_entry (m : MatchUnitLPM V) (handle : Nat) :
    MatchErrorCode × MatchUnitLPM V :=
  let handle_ := HANDLE_INTERNAL handle
  if m.core.valid_handle_ handle_ = false then (INVALID_HANDLE, m)
  else
    let entry := m.entries.getD handle_ default
    if HANDLE_VERSION handle ≠ entry.version then (EXPIRED_HANDLE, m)
    else
      let entries' := m.entries.set handle_ { entry with version := (entry.version + 1) % 2 ^ 32 }
      let trie' := trieDelete m.entries_trie entry.key entry.prefix_length
      let us := m.core.unset_handle handle_
      (us.1, { core := us.2, entries := entries', entries_trie := trie' })

/-- `MatchUnitLPM::modify_entry`. -/
def modify_entry (m : MatchUnitLPM V) (handle : Nat) (value : V) :
    MatchErrorCode × MatchUnitLPM V :=
  let handle_ := HANDLE_INTERNAL handle
  if m.core.valid_handle_ handle_ = false then (INVALID_HANDLE, m)
  else
    let entry := m.entries.getD handle_ default
    if HANDLE_VERSION handle ≠ entry.version then (EXPIRED_HANDLE, m)
    else
      (SUCCESS, { m with entries := m.entries.set handle_ { entry with value := value } })

/-- `MatchUnitLPM::get_value`.  The unit state is returned unchanged on every
path. -/
def get_value (m : MatchUnitLPM V) (handle : Nat) :
    MatchErrorCode × Option V × MatchUnitLPM V :=
  let handle_ := HANDLE_INTERNAL handle
  if m.core.valid_handle_ handle_ = false then (INVALID_HANDLE, none, m)
  else
    let entry := m.entries.getD handle_ default
    if HANDLE_VERSION handle ≠ entry.version then (EXPIRED_HANDLE, none, m)
    else (SUCCESS, some entry.value, m)

end MatchUnitLPM

/-! ### Ternary unit -/

/-- `MatchUnitTernary::Entry`. -/
structure TernaryEntry (V : Type) where
  key : List Nat
  mask : List Nat
  priority : Int
  value : V
  version : Nat
  deriving DecidableEq, Repr

instance {V : Type} [Inhabited V] : Inhabited (TernaryEntry V) := ⟨⟨[], [], 0, default, 0⟩⟩

/-- The per-byte match test of `MatchUnitTernary::lookup_key`: every byte
satisfies `entry.key[i] == (key[i] & entry.mask[i])`. -/
def ternary_match {V : Type} (nbytes : Nat) (e : TernaryEntry V) (key : List Nat) : Bool :=
  (List.range nbytes).all (fun i =>
    e.key.getD i 0 == Nat.land (key.getD i 0) (e.mask.getD i 0))

/-- The scan loop of `MatchUnitTernary::lookup_key` over the live slots in
iteration order, carrying `max_priority` (initially `0`) and the best handle.
Entries whose priority does not strictly exceed the running maximum are
skipped before the byte comparison. -/
def ternaryScanGo {V : Type} [Inhabited V] (entries : List (TernaryEntry V))
    (nbytes : Nat) (key : List Nat) :
    List Nat → Int → Option Nat → Int × Option Nat
  | [], maxP, maxH => (maxP, maxH)
  | s :: rest, maxP, maxH =>
    if (entries.getD s default).priority ≤ maxP then
      ternaryScanGo entries nbytes key rest maxP maxH
    else if ternary_match nbytes (entries.getD s default) key then
      ternaryScanGo entries nbytes key rest (entries.getD s default).priority (some s)
    else ternaryScanGo entries nbytes key rest maxP maxH

/-- The ternary unit: shared core and entry vector (the scan iterates the
allocator's live slots). -/
structure MatchUnitTernary (V : Type) where
  core : MatchCore
  entries : List (TernaryEntry V)
  deriving DecidableEq, Repr

namespace MatchUnitTernary

variable {V : Type} [Inhabited V]

/-- `MatchUnitTernary::lookup_key`: the priority scan; the returned handle is
the winning slot id (`max_handle = *it`). -/
def lookup_key (m : MatchUnitTernary V) (key : List Nat) : Option (Nat × V) :=
  match (ternaryScanGo m.entries m.core.nbytes_key key m.core.handles.iter 0 none).2 with
  | none => none
  | some s => some (s, (m.entries.getD s default).value)

/-- `MatchUnitTernary::add_entry`: build key and mask (VALID loop, then the
typed loop), reserve a slot, emit `HANDLE_SET(version, slot)`, store the
entry with the caller's priority. -/
def add_entry (m : MatchUnitTernary V) (match_key : List MatchKeyParam) (value : V)
    (priority : Int) : MatchErrorCode × Nat × MatchUnitTernary V :=
  let new_key := ternaryNewKey match_key
  let new_mask := ternaryNewMask match_key
  let gs := m.core.get_and_set_handle
  if gs.1 ≠ SUCCESS then (gs.1, 0, m)
  else
    let handle_ := gs.2.1
    let version := (m.entries.getD handle_ default).version
    let handle := HANDLE_SET version handle_
    (SUCCESS, handle,
      { core := gs.2.2
        entries := m.entries.set handle_ ⟨new_key, new_mask, priority, value, version⟩ })

/-- `MatchUnitTernary::delete_entry`. -/
def delete_entry (m : MatchUnitTernary V) (handle : Nat) :
    MatchErrorCode × MatchUnitTernary V :=
  let handle_ := HANDLE_INTERNAL handle
  if m.core.valid_handle_ handle_ = false then (INVALID_HANDLE, m)
  else
    let entry := m.entries.getD handle_ default
    if HANDLE_VERSION handle ≠ entry.version then (EXPIRED_HANDLE, m)
    else
      let entries' := m.entries.set handle_ { entry with version := (entry.version + 1) % 2 ^ 32 }
      let us := m.core.unset_handle handle_
      (us.1, { core := us.2, entries := entries' })

/-- `MatchUnitTernary::modify_entry` (this operation uses the public
`valid_handle`, as in the source). -/
def modify_entry (m : MatchUnitTernary V) (handle : Nat) (value : V) :
    MatchErrorCode × MatchUnitTernary V :=
  let handle_ := HANDLE_INTERNAL handle
  if m.core.valid_handle handle_ = false then (INVALID_HANDLE, m)
  else
    let entry := m.entries.getD handle_ default
    if HANDLE_VERSION handle ≠ entry.version then (EXPIRED_HANDLE, m)
    else
      (SUCCESS, { m with entries := m.entries.set handle_ { entry with value := value } })

/-- `MatchUnitTernary::get_value`.  The unit state is returned unchanged on
every path. -/
def get_value (m : MatchUnitTernary V) (handle : Nat) :
    MatchErrorCode × Option V × MatchUnitTernary V :=
  let handle_ := HANDLE_INTERNAL handle
  if m.core.valid_handle_ handle_ = false then (INVALID_HANDLE, none, m)
  else
    let entry := m.entries.getD handle_ default
    if HANDLE_VERSION handle ≠ entry.version then (EXPIRED_HANDLE, none, m)
    else (SUCCESS, some entry.value, m)

end MatchUnitTernary

/-! ### Helper lemmas about the allocator model and the map model -/

theorem firstFreeAux_not_live (l : List Bool) :
    l.getD (firstFreeAux l) false = false := by
  induction l with
  | nil => rfl
  | cons b rest ih =>
    by_cases hb : b
    · simpa [firstFreeAux, hb] using ih
    · simp [firstFreeAux, hb]

theorem getD_setIdx_self (b : Bool) :
    ∀ (l : List Bool) (i : Nat), (setIdx l i b).getD i false = b := by
  intro l
  induction l with
  | nil =>
    intro i
    induction i with
    | zero => rfl
    | succ n ih => simpa [setIdx] using ih
  | cons x rest ih =>
    intro i
    cases i with
    | zero => rfl
    | succ n => simpa [setIdx] using ih n

theorem getD_setIdx_ne (b : Bool) :
    ∀ (l : List Bool) (i j : Nat), i ≠ j →
      (setIdx l i b).getD j false = l.getD j false := by
  intro l
  induction l with
  | nil =>
    intro i
    induction i with
    | zero =>
      intro j hij
      cases j with
      | zero => exact absurd rfl hij
      | succ n => simp [setIdx]
    | succ n ihn =>
      intro j hij
      cases j with
      | zero => simp [setIdx]
      | succ jm =>
        simpa [setIdx] using ihn jm (fun hh => hij (by rw [hh]))
  | cons x rest ih =>
    intro i j hij
    cases i with
    | zero =>
      cases j with
      | zero => exact absurd rfl hij
      | succ jn => simp [setIdx]
    | succ n =>
      cases j with
      | zero => simp [setIdx]
      | succ jn =>
        simpa [setIdx] using ih n jn (fun hh => hij (by rw [hh]))

theorem getD_set_self {α : Type _} (l : List α) (i : Nat) (a d : α)
    (h : i < l.length) : (l.set i a).getD i d = a := by
  induction l generalizing i with
  | nil => simp at h
  | cons x rest ih =>
    cases i with
    | zero => rfl
    | succ n =>
      simpa [List.set] using ih n (by simpa using h)

theorem mapFind_mapInsert_self (m : List (List Nat × Nat)) (k : List Nat) (v : Nat) :
    mapFind (mapInsert m k v) k = some v := by
  induction m with
  | nil => simp [mapInsert, mapFind]
  | cons p rest ih =>
    obtain ⟨k', v'⟩ := p
    by_cases h : k' = k
    · simp [mapInsert, h, mapFind]
    · simp [mapInsert, h, mapFind, ih]

theorem get_and_set_handle_of_not_full (c : MatchCore)
    (h : c.num_entries < c.size) :
    c.get_and_set_handle =
      (SUCCESS, firstFreeAux c.handles.live,
        { c with
          handles := ⟨setIdx c.handles.live (firstFreeAux c.handles.live) true⟩
          num_entries := c.num_entries + 1 }) := by
  simp [MatchCore.get_and_set_handle, Nat.not_le.mpr h, HandleMgr.get_handle]

theorem unset_handle_of_valid (c : MatchCore) (h : Nat)
    (hv : c.valid_handle_ h = true) :
    c.unset_handle h =
      (SUCCESS, { c with
        handles := ⟨setIdx c.handles.live h false⟩
        num_entries := c.num_entries - 1 }) := by
  have hl : c.handles.live.getD h false = true := hv
  rw [MatchCore.unset_handle, HandleMgr.release_handle, if_pos hl]

/-! ### Helper lemmas about the key builders -/

theorem validPass_eq_filter (mk : List MatchKeyParam) :
    validPass mk =
      (mk.filter (fun p => p.type = ParamType.VALID)).flatMap (fun p => p.key) := by
  induction mk with
  | nil => simp [validPass]
  | cons p rest ih =>
    by_cases h : p.type = ParamType.VALID
    · simp [validPass, h, ih]
    · simp [validPass, h, ih]

theorem exactSecondPass_eq_filter (mk : List MatchKeyParam)
    (hwf : ∀ p ∈ mk, p.type = ParamType.EXACT ∨ p.type = ParamType.VALID) :
    exactSecondPass mk =
      (mk.filter (fun p => ¬ p.type = ParamType.VALID)).flatMap (fun p => p.key) := by
  induction mk with
  | nil => simp [exactSecondPass]
  | cons p rest ih =>
    have hrest := fun q hq => hwf q (List.mem_cons_of_mem p hq)
    rcases hwf p (List.mem_cons_self p rest) with h | h
    · simp [exactSecondPass, h, ih hrest]
    · simp [exactSecondPass, h, ih hrest]

theorem ternaryValidLoop_key_eq (mk : List MatchKeyParam) :
    (ternaryValidLoop mk).1 =
      (mk.filter (fun p => p.type = ParamType.VALID)).flatMap (fun p => p.key) := by
  induction mk with
  | nil => simp [ternaryValidLoop]
  | cons p rest ih =>
    by_cases h : p.type = ParamType.VALID
    · simp [ternaryValidLoop, h, ih]
    · simp [ternaryValidLoop, h, ih]

theorem ternarySecondLoop_key_eq (mk : List MatchKeyParam) :
    (ternarySecondLoop mk).1 =
      (mk.filter (fun p => ¬ p.type = ParamType.VALID)).flatMap (fun p => p.key) := by
  induction mk with
  | nil => simp [ternarySecondLoop]
  | cons p rest ih =>
    cases h : p.type <;> simp [ternarySecondLoop, h, ih]

theorem lpmLoop_key_eq (mk : List MatchKeyParam) :
    (lpmLoop mk).1 =
      (mk.filter (fun p => p.type = ParamType.EXACT)).flatMap (fun p => p.key) := by
  induction mk with
  | nil => simp [lpmLoop]
  | cons p rest ih =>
    cases h : p.type <;> simp [lpmLoop, h, ih]

theorem lpmLoop_param_of_no_lpm (mk : List MatchKeyParam)
    (h : mk.filter (fun p => p.type = ParamType.LPM) = []) :
    (lpmLoop mk).2.2 = none := by
  induction mk with
  | nil => simp [lpmLoop]
  | cons p rest ih =>
    by_cases hp : p.type = ParamType.LPM
    · simp [hp] at h
    · have hrest : rest.filter (fun p => p.type = ParamType.LPM) = [] := by
        simpa [hp] using h
      cases ht : p.type <;> simp_all [lpmLoop]

theorem lpmLoop_param_of_single_lpm (mk : List MatchKeyParam) (q : MatchKeyParam)
    (h : mk.filter (fun p => p.type = ParamType.LPM) = [q]) :
    (lpmLoop mk).2.2 = some q := by
  induction mk with
  | nil => simp at h
  | cons p rest ih =>
    by_cases hp : p.type = ParamType.LPM
    · rw [List.filter_cons_of_pos (by simpa using hp)] at h
      injection h with h1 h2
      have hnone := lpmLoop_param_of_no_lpm rest h2
      subst h1
      simp [lpmLoop, hp, hnone]
    · have hrest : rest.filter (fun p => p.type = ParamType.LPM) = [q] := by
        simpa [hp] using h
      cases ht : p.type <;> simp_all [lpmLoop]

/-! ### The ternary scan lemma

A full characterisation of the scan loop of `MatchUnitTernary::lookup_key`:
either nothing beats the running maximum and the accumulator survives, or the
result is the first entry attaining the strictly greatest priority among
matching entries above the threshold. -/

theorem ternaryScanGo_cons {V : Type} [Inhabited V] (entries : List (TernaryEntry V))
    (nbytes : Nat) (key : List Nat) (s : Nat) (rest : List Nat) (p : Int)
    (acc : Option Nat) :
    ternaryScanGo entries nbytes key (s :: rest) p acc
      = if (entries.getD s default).priority ≤ p then
          ternaryScanGo entries nbytes key rest p acc
        else if ternary_match nbytes (entries.getD s default) key then
          ternaryScanGo entries nbytes key rest (entries.getD s default).priority (some s)
        else ternaryScanGo entries nbytes key rest p acc := rfl

theorem ternaryScanGo_spec {V : Type} [Inhabited V] (entries : List (TernaryEntry V))
    (nbytes : Nat) (key : List Nat) :
    ∀ (l : List Nat) (p : Int) (acc : Option Nat),
      (ternaryScanGo entries nbytes key l p acc = (p, acc) ∧
        ∀ t ∈ l, ternary_match nbytes (entries.getD t default) key = true →
          (entries.getD t default).priority ≤ p) ∨
      (∃ l1 s l2,
        l = l1 ++ s :: l2 ∧
        ternary_match nbytes (entries.getD s default) key = true ∧
        p < (entries.getD s default).priority ∧
        ternaryScanGo entries nbytes key l p acc =
          ((entries.getD s default).priority, some s) ∧
        (∀ t ∈ l1, ternary_match nbytes (entries.getD t default) key = true →
          (entries.getD t default).priority < (entries.getD s default).priority) ∧
        (∀ t ∈ l2, ternary_match nbytes (entries.getD t default) key = true →
          (entries.getD t default).priority ≤ (entries.getD s default).priority)) := by
  intro l
  induction l with
  | nil =>
    intro p acc
    left
    exact ⟨rfl, by simp⟩
  | cons s rest ih =>
    intro p acc
    by_cases hskip : (entries.getD s default).priority ≤ p
    · have hred : ternaryScanGo entries nbytes key (s :: rest) p acc
          = ternaryScanGo entries nbytes key rest p acc := by
        rw [ternaryScanGo_cons, if_pos hskip]
      rcases ih p acc with ⟨h1, h2⟩ | ⟨l1, s', l2, heq, hm, hgt, hres, hl1, hl2⟩
      · left
        refine ⟨hred.trans h1, ?_⟩
        intro t ht hmt
        rcases List.mem_cons.1 ht with rfl | ht'
        · exact hskip
        · exact h2 t ht' hmt
      · right
        refine ⟨s :: l1, s', l2, by rw [heq, List.cons_append], hm, hgt, hred.trans hres, ?_, hl2⟩
        intro t ht hmt
        rcases List.mem_cons.1 ht with rfl | ht'
        · exact lt_of_le_of_lt hskip hgt
        · exact hl1 t ht' hmt
    · by_cases hm : ternary_match nbytes (entries.getD s default) key = true
      · have hred : ternaryScanGo entries nbytes key (s :: rest) p acc
            = ternaryScanGo entries nbytes key rest
                (entries.getD s default).priority (some s) := by
          rw [ternaryScanGo_cons, if_neg hskip, if_pos hm]
        rcases ih (entries.getD s default).priority (some s) with
          ⟨h1, h2⟩ | ⟨l1, s', l2, heq, hm', hgt, hres, hl1, hl2⟩
        · right
          exact ⟨[], s, rest, rfl, hm, not_le.1 hskip, hred.trans h1, by simp, h2⟩
        · right
          refine ⟨s :: l1, s', l2, by rw [heq, List.cons_append], hm',
            lt_trans (not_le.1 hskip) hgt, hred.trans hres, ?_, hl2⟩
          intro t ht hmt
          rcases List.mem_cons.1 ht with rfl | ht'
          · exact hgt
          · exact hl1 t ht' hmt
      · have hred : ternaryScanGo entries nbytes key (s :: rest) p acc
            = ternaryScanGo entries nbytes key rest p acc := by
          rw [ternaryScanGo_cons, if_neg hskip, if_neg hm]
        rcases ih p acc with ⟨h1, h2⟩ | ⟨l1, s', l2, heq, hm', hgt, hres, hl1, hl2⟩
        · left
          refine ⟨hred.trans h1, ?_⟩
          intro t ht hmt
          rcases List.mem_cons.1 ht with rfl | ht'
          · exact absurd hmt hm
          · exact h2 t ht' hmt
        · right
          refine ⟨s :: l1, s', l2, by rw [heq, List.cons_append], hm', hgt, hred.trans hres, ?_, hl2⟩
          intro t ht hmt
          rcases List.mem_cons.1 ht with rfl | ht'
          · exact absurd hmt hm
          · exact hl1 t ht' hmt

/-- Position of the first occurrence of `a` in a slot list (the list's length
when `a` is absent); used to state the ternary tie-breaking rule. -/
def idxOf (a : Nat) : List Nat → Nat
  | [] => 0
  | b :: rest => if b = a then 0 else idxOf a rest + 1

theorem idxOf_append_self_le (l1 l2 : List Nat) (a : Nat) :
    idxOf a (l1 ++ a :: l2) ≤ l1.length := by
  induction l1 with
  | nil => simp [idxOf]
  | cons b rest ih =>
    by_cases hba : b = a
    · simp [idxOf, hba]
    · simpa [idxOf, hba] using ih

theorem length_le_idxOf (l1 l2 : List Nat) (a : Nat) (h : a ∉ l1) :
    l1.length ≤ idxOf a (l1 ++ l2) := by
  induction l1 with
  | nil => simp
  | cons b rest ih =>
    have hba : b ≠ a := fun e => h (e ▸ List.mem_cons_self b rest)
    have hrest : a ∉ rest := fun hm => h (List.mem_cons_of_mem _ hm)
    simpa [idxOf, hba] using ih hrest

/-! ### Claim C1 -/

/-- Scenario for C1: an empty exact unit with capacity 3 and 1-byte keys. -/
def c1Exact0 : MatchUnitExact Nat := ⟨⟨3, 1, 0, ⟨[]⟩⟩, List.replicate 3 default, []⟩

/-- Scenario for C1: a one-byte EXACT parameter. -/
def c1Param (b : Nat) : MatchKeyParam := ⟨ParamType.EXACT, [b], [], 0⟩

/-- Scenario for C1: the unit after three successful `add_entry` calls, holding
slots 0, 1, 2 (handles 0, 1, 2, all versions 0). -/
def c1Exact3 : MatchUnitExact Nat :=
  (((c1Exact0.add_entry [c1Param 10] 100 0).2.2.add_entry
      [c1Param 11] 101 0).2.2.add_entry [c1Param 12] 102 0).2.2

/-- C1: refuted by the code — the claim says every mutating or reading
operation decodes the slot of a handle `h` as `h & 0xffffffff`, but the
source's `HANDLE_INTERNAL` macro computes the C logical AND `h && 0xffffffff`,
which is `1` for every non-zero `h`.  After adding three entries (handles
0, 1, 2), `delete_entry 2` decodes slot `1` instead of slot `2`: it returns
`SUCCESS` and frees slot 1, while slot 2 — the slot the claim says is
addressed — stays live. -/
theorem claim_C1_handle_decode :
    (c1Exact3.add_entry [c1Param 13] 103 0).1 = TABLE_FULL ∧
    ((c1Exact0.add_entry [c1Param 10] 100 0).2.1 = 0 ∧
      ((c1Exact0.add_entry [c1Param 10] 100 0).2.2.add_entry
        [c1Param 11] 101 0).2.1 = 1 ∧
      (((c1Exact0.add_entry [c1Param 10] 100 0).2.2.add_entry
        [c1Param 11] 101 0).2.2.add_entry [c1Param 12] 102 0).2.1 = 2) ∧
    HANDLE_INTERNAL 2 = 1 ∧
    Nat.land 2 0xffffffff = 2 ∧
    (c1Exact3.delete_entry 2).1 = SUCCESS ∧
    (c1Exact3.delete_entry 2).2.core.handles.valid_handle 1 = false ∧
    (c1Exact3.delete_entry 2).2.core.handles.valid_handle 2 = true ∧
    (c1Exact3.delete_entry 2).2.entries.getD 2 default
      = c1Exact3.entries.getD 2 default := by
  decide

/-! ### Claim C4 -/

/-- Scenario for C4: an empty LPM unit with 3-byte keys. -/
def c4Unit : MatchUnitLPM Nat := ⟨⟨2, 3, 0, ⟨[]⟩⟩, List.replicate 2 default, []⟩

/-- Scenario for C4: a 2-byte EXACT parameter followed by a 1-byte LPM
parameter with `prefix_length = 3`. -/
def c4Params : List MatchKeyParam :=
  [⟨ParamType.EXACT, [0xAA, 0xBB], [], 0⟩, ⟨ParamType.LPM, [0xCC], [], 3⟩]

/-- C4: refuted by the code — the claim (and the spec) says each EXACT byte
contributes 8 bits to the stored prefix length, so the entry below should
store `8 * 2 + 3 = 19`; the source adds `param.key.size()` (the byte count,
not the bit count) per EXACT parameter and stores `2 + 3 = 5`.  The second
half of the claim — the LPM parameter's bytes are appended last in the
canonical key — does hold (`[0xAA, 0xBB, 0xCC]`). -/
theorem claim_C4_prefix_accumulation :
    ((c4Unit.add_entry c4Params 100 0).map (fun r => r.1)) = some SUCCESS ∧
    ((c4Unit.add_entry c4Params 100 0).map
      (fun r => (r.2.2.entries.getD 0 default).prefix_length)) = some 5 ∧
    ((c4Unit.add_entry c4Params 100 0).map
      (fun r => (r.2.2.entries.getD 0 default).key)) = some [0xAA, 0xBB, 0xCC] ∧
    (5 : Nat) ≠ 8 * 2 + 3 := by
  decide

/-! ### Claim C5 -/

/-- Scenario for C5: an empty exact unit with capacity 3 and 1-byte keys. -/
def c5Exact0 : MatchUnitExact Nat := ⟨⟨3, 1, 0, ⟨[]⟩⟩, List.replicate 3 default, []⟩

/-- Scenario for C5: a one-byte EXACT parameter. -/
def c5Param (b : Nat) : MatchKeyParam := ⟨ParamType.EXACT, [b], [], 0⟩

/-- Scenario for C5: the unit after three successful `add_entry` calls
(handles 0, 1, 2). -/
def c5Exact3 : MatchUnitExact Nat :=
  (((c5Exact0.add_entry [c5Param 10] 100 0).2.2.add_entry
      [c5Param 11] 101 0).2.2.add_entry [c5Param 12] 102 0).2.2

/-- Scenario for C5: the unit after additionally deleting handle 1. -/
def c5After : MatchUnitExact Nat := (c5Exact3.delete_entry 1).2

/-- C5: refuted by the code — the claim says `valid_handle h` stays true from
a successful `add_entry` until the next `delete_entry h`.  Handle 2 was
returned by the third `add_entry` and is never deleted; after deleting the
unrelated handle 1, `valid_handle 2` is already false and `get_value 2`
returns `INVALID_HANDLE`, because the buggy `HANDLE_INTERNAL` decodes handle
2 to slot 1.  Slot 2's entry is still stored and live. -/
theorem claim_C5_validity_window :
    (((c5Exact0.add_entry [c5Param 10] 100 0).2.2.add_entry
      [c5Param 11] 101 0).2.2.add_entry [c5Param 12] 102 0).2.1 = 2 ∧
    c5Exact3.core.valid_handle 2 = true ∧
    (c5Exact3.delete_entry 1).1 = SUCCESS ∧
    c5After.core.valid_handle 2 = false ∧
    (c5After.get_value 2).1 = INVALID_HANDLE ∧
    (c5After.modify_entry 2 999).1 = INVALID_HANDLE ∧
    c5After.core.handles.valid_handle 2 = true ∧
    c5After.entries.getD 2 default = c5Exact3.entries.getD 2 default := by
  decide

/-! ### Claim C6 -/

/-- Scenario for C6: add two entries (handles 0 and 1) and delete handle 0,
leaving slot 0 dead with version 1 and slot 1 live with version 0. -/
def c6Unit : MatchUnitExact Nat :=
  (((⟨⟨3, 1, 0, ⟨[]⟩⟩, List.replicate 3 default, []⟩ :
      MatchUnitExact Nat).add_entry [⟨ParamType.EXACT, [10], [], 0⟩] 100 0).2.2.add_entry
    [⟨ParamType.EXACT, [11], [], 0⟩] 101 0).2.2.delete_entry 0 |>.2

/-- C6: counterexample — the claim says `valid_handle h` is true iff the slot
embedded in `h` (its low 32 bits) is live and that slot's version equals
`h >> 32`.  In the state above, `h = 2` embeds slot 2, which is not live, yet
`valid_handle 2 = true`; and `h = HANDLE_SET 9 1` embeds version 9 while slot
1 stores version 0, yet `valid_handle` is again true.  `valid_handle` only
checks liveness of the slot produced by the logical-AND decode. -/
theorem claim_C6_counterexample :
    c6Unit.core.valid_handle 2 = true ∧
    c6Unit.core.handles.valid_handle 2 = false ∧
    c6Unit.core.valid_handle (HANDLE_SET 9 1) = true ∧
    HANDLE_VERSION (HANDLE_SET 9 1) = 9 ∧
    (c6Unit.entries.getD 1 default).version = 0 ∧
    (9 : Nat) ≠ 0 := by
  decide

/-- C6 (amended): `valid_handle h` is true iff the slot produced by the
source's `HANDLE_INTERNAL` decode — `1` for every non-zero `h` and `0` for
`h = 0` — is currently live; the version embedded in `h` is never
consulted. -/
theorem claim_C6_amended (c : MatchCore) (h : Nat) :
    c.valid_handle h = c.handles.valid_handle (if h = 0 then 0 else 1) := by
  by_cases h0 : h = 0 <;>
    simp [MatchCore.valid_handle, MatchCore.valid_handle_, HANDLE_INTERNAL, h0]

/-! ### Claim C7 -/

/-- Scenario for C7: an LPM parameter first, then an EXACT parameter. -/
def c7Params : List MatchKeyParam :=
  [⟨ParamType.LPM, [0xCC], [], 3⟩, ⟨ParamType.EXACT, [0xAA], [], 0⟩]

/-- Scenario for C7: an empty LPM unit with 2-byte keys. -/
def c7Unit : MatchUnitLPM Nat := ⟨⟨2, 2, 0, ⟨[]⟩⟩, List.replicate 2 default, []⟩

/-- C7: counterexample — the claim says every variant emits the bytes of the
non-VALID parameters in input order after the VALID bytes.  In the LPM
variant the single LPM parameter's bytes are appended last regardless of
input position: for `[LPM 0xCC, EXACT 0xAA]` the claim (and the spec-side
builder `specValidFirstKey`) gives `CC AA`, but `add_entry` stores
`AA CC`. -/
theorem claim_C7_counterexample :
    specValidFirstKey c7Params = [0xCC, 0xAA] ∧
    ((c7Unit.add_entry c7Params 100 0).map
      (fun r => (r.2.2.entries.getD 0 default).key)) = some [0xAA, 0xCC] ∧
    [0xAA, 0xCC] ≠ [0xCC, 0xAA] := by
  decide

/-- Scenario for C7's witness: the spec's own example parameter list
`[EXACT 0xAA, VALID 0x01, EXACT 0xBB]`. -/
def c7Example : List MatchKeyParam :=
  [⟨ParamType.EXACT, [0xAA], [], 0⟩, ⟨ParamType.VALID, [0x01], [], 0⟩,
    ⟨ParamType.EXACT, [0xBB], [], 0⟩]

/-- C7 (amended): the Exact and Ternary canonical keys emit VALID bytes first
(in input order) and then the remaining parameters' bytes in input order,
matching the spec-side builder `specValidFirstKey`; the LPM canonical key
emits VALID bytes, then the EXACT bytes in input order, and the single LPM
parameter's bytes always last, regardless of the LPM parameter's position;
the example `[EXACT 0xAA, VALID 0x01, EXACT 0xBB]` canonicalizes to
`01 AA BB`. -/
theorem claim_C7_amended :
    (∀ mk : List MatchKeyParam,
      (∀ p ∈ mk, p.type = ParamType.EXACT ∨ p.type = ParamType.VALID) →
      exactNewKey mk = specValidFirstKey mk) ∧
    (∀ mk : List MatchKeyParam, ternaryNewKey mk = specValidFirstKey mk) ∧
    (∀ (mk : List MatchKeyParam) (q : MatchKeyParam),
      mk.filter (fun p => p.type = ParamType.LPM) = [q] →
      (lpmLoop mk).2.2 = some q ∧
      validPass mk ++ (lpmLoop mk).1 ++ q.key =
        ((mk.filter (fun p => p.type = ParamType.VALID)).flatMap (fun p => p.key)) ++
        ((mk.filter (fun p => p.type = ParamType.EXACT)).flatMap (fun p => p.key)) ++
        q.key) ∧
    exactNewKey c7Example = [0x01, 0xAA, 0xBB] ∧
    ternaryNewKey c7Example = [0x01, 0xAA, 0xBB] := by
  refine ⟨?_, ?_, ?_, by decide, by decide⟩
  · intro mk hwf
    rw [exactNewKey, specValidFirstKey, validPass_eq_filter,
      exactSecondPass_eq_filter mk hwf]
  · intro mk
    rw [ternaryNewKey, specValidFirstKey, ternaryValidLoop_key_eq,
      ternarySecondLoop_key_eq]
  · intro mk q hq
    refine ⟨lpmLoop_param_of_single_lpm mk q hq, ?_⟩
    rw [validPass_eq_filter, lpmLoop_key_eq]

/-- C7 witness: the amended theorem applied to the spec's example list and to
the LPM-first list `c7Params`. -/
theorem claim_C7_amended_witness :
    exactNewKey c7Example = specValidFirstKey c7Example ∧
    (lpmLoop c7Params).2.2 = some ⟨ParamType.LPM, [0xCC], [], 3⟩ := by
  exact ⟨claim_C7_amended.1 c7Example (by decide),
    (claim_C7_amended.2.2.1 c7Params ⟨ParamType.LPM, [0xCC], [], 3⟩ (by decide)).1⟩

/-! ### Claim C2 -/

/-- Scenario for C2: an empty exact unit with capacity 2 and 1-byte keys. -/
def c2Unit : MatchUnitExact Nat := ⟨⟨2, 1, 0, ⟨[]⟩⟩, List.replicate 2 default, []⟩

/-- Scenario for C2: a one-byte EXACT parameter with key byte 10. -/
def c2Param : MatchKeyParam := ⟨ParamType.EXACT, [10], [], 0⟩

/-- Scenario for C2: add key 10, delete it again (handle 0 decodes correctly
by accident), leaving slot 0 free with version 1. -/
def c2Readd : MatchUnitExact Nat :=
  ((c2Unit.add_entry [c2Param] 100 0).2.2.delete_entry 0).2

/-- C2: counterexample — after the slot is reused, `add_entry` returns the
64-bit handle `HANDLE_SET 1 0 = 4294967296`, but `lookup_key` on the
canonical key returns the pair `(0, v)`: the source's `lookup_key` returns
the internal slot id stored in the map (`entry_it->second`), not the
versioned handle `add_entry` wrote out, so the claimed equality fails
whenever the slot's version is non-zero. -/
theorem claim_C2_counterexample :
    ((c2Unit.add_entry [c2Param] 100 0).2.2.delete_entry 0).1 = SUCCESS ∧
    (c2Readd.add_entry [c2Param] 200 0).1 = SUCCESS ∧
    (c2Readd.add_entry [c2Param] 200 0).2.1 = 4294967296 ∧
    (c2Readd.add_entry [c2Param] 200 0).2.2.lookup_key (exactNewKey [c2Param])
      = some (0, 200) ∧
    (0 : Nat) ≠ 4294967296 := by
  decide

/-- C2 (amended): when `add_entry` succeeds with handle `h`, `lookup_key` on
the canonical key returns the pair `(slot, v)` where `slot` is the internal
slot id the entry was placed in and `h = HANDLE_SET(version, slot)` (so the
returned handle equals `h` only while the slot's version is zero); and under
the map invariant (every binding points to a live slot holding that key),
`lookup_key` on any key that is not the key of a live entry returns the
empty result. -/
theorem claim_C2_amended {V : Type} [Inhabited V]
    (m : MatchUnitExact V) (mk : List MatchKeyParam) (v : V) (prio : Int)
    (h : Nat) (m' : MatchUnitExact V) (k : List Nat)
    (hAdd : m.add_entry mk v prio = (SUCCESS, h, m'))
    (hlen : firstFreeAux m.core.handles.live < m.entries.length)
    (hInv : ∀ k' s, mapFind m.entries_map k' = some s →
      m.core.handles.valid_handle s = true ∧ (m.entries.getD s default).key = k')
    (hk : ∀ s, m.core.handles.valid_handle s = true →
      (m.entries.getD s default).key ≠ k) :
    m'.lookup_key (exactNewKey mk) = some (firstFreeAux m.core.handles.live, v) ∧
    h = HANDLE_SET (m.entries.getD (firstFreeAux m.core.handles.live) default).version
          (firstFreeAux m.core.handles.live) ∧
    m.lookup_key k = none := by
  by_cases hfull : m.core.num_entries ≥ m.core.size
  · exfalso
    have hres : m.add_entry mk v prio = (TABLE_FULL, 0, m) := by
      simp [MatchUnitExact.add_entry, MatchCore.get_and_set_handle, hfull]
    rw [hres] at hAdd
    simp at hAdd
  · have hgs := get_and_set_handle_of_not_full m.core (Nat.not_le.mp hfull)
    have hres : m.add_entry mk v prio =
        (SUCCESS,
          HANDLE_SET (m.entries.getD (firstFreeAux m.core.handles.live) default).version
            (firstFreeAux m.core.handles.live),
          { core := { m.core with
              handles := ⟨setIdx m.core.handles.live (firstFreeAux m.core.handles.live) true⟩
              num_entries := m.core.num_entries + 1 }
            entries := m.entries.set (firstFreeAux m.core.handles.live)
              ⟨exactNewKey mk, v,
                (m.entries.getD (firstFreeAux m.core.handles.live) default).version⟩
            entries_map := mapInsert m.entries_map (exactNewKey mk)
              (firstFreeAux m.core.handles.live) }) := by
      simp [MatchUnitExact.add_entry, hgs]
    rw [hres] at hAdd
    injection hAdd with hA hBC
    injection hBC with hB hC
    refine ⟨?_, hB.symm, ?_⟩
    · rw [← hC]
      simp only [MatchUnitExact.lookup_key,
        mapFind_mapInsert_self m.entries_map (exactNewKey mk)
          (firstFreeAux m.core.handles.live)]
      rw [getD_set_self _ _ _ _ hlen]
    · cases hfind2 : mapFind m.entries_map k with
      | none => simp [MatchUnitExact.lookup_key, hfind2]
      | some s =>
        exfalso
        obtain ⟨hlive, hkey⟩ := hInv k s hfind2
        exact hk s hlive hkey

/-- C2 witness: the amended theorem applied to one `add_entry` on the empty
unit `c2Unit` and to the absent key `[99]`. -/
theorem claim_C2_amended_witness :
    (c2Unit.add_entry [c2Param] 100 0).2.2.lookup_key (exactNewKey [c2Param])
      = some (0, 100) ∧
    (c2Unit.add_entry [c2Param] 100 0).2.1 = HANDLE_SET 0 0 ∧
    c2Unit.lookup_key [99] = none := by
  have h := claim_C2_amended c2Unit [c2Param] 100 0
    (c2Unit.add_entry [c2Param] 100 0).2.1
    (c2Unit.add_entry [c2Param] 100 0).2.2 [99]
    rfl (by decide)
    (by intro k' s hs; simp [c2Unit, mapFind] at hs)
    (by intro s hs; simp [c2Unit, HandleMgr.valid_handle] at hs)
  exact ⟨h.1, h.2.1, h.2.2⟩

/-! ### Claim C8 -/

/-- C8: confirmed — in the Exact variant, adding a key already bound to a
live slot (table not full) succeeds on a fresh slot, overwrites the map
binding to the new slot, leaves the old slot live (it is not released),
keeps it counted in `num_entries` (which grows by one), and the key now
looks up to the new slot, making the old one unreachable via `lookup_key`. -/
theorem claim_C8_duplicate_key {V : Type} [Inhabited V]
    (m : MatchUnitExact V) (mk : List MatchKeyParam) (v : V) (prio : Int)
    (s_old : Nat)
    (hOld : mapFind m.entries_map (exactNewKey mk) = some s_old)
    (hLive : m.core.handles.valid_handle s_old = true)
    (hFull : m.core.num_entries < m.core.size)
    (hlen : firstFreeAux m.core.handles.live < m.entries.length) :
    (m.add_entry mk v prio).1 = SUCCESS ∧
    m.core.handles.valid_handle (firstFreeAux m.core.handles.live) = false ∧
    firstFreeAux m.core.handles.live ≠ s_old ∧
    mapFind (m.add_entry mk v prio).2.2.entries_map (exactNewKey mk)
      = some (firstFreeAux m.core.handles.live) ∧
    (m.add_entry mk v prio).2.2.core.handles.valid_handle s_old = true ∧
    (m.add_entry mk v prio).2.2.core.num_entries = m.core.num_entries + 1 ∧
    (m.add_entry mk v prio).2.2.lookup_key (exactNewKey mk)
      = some (firstFreeAux m.core.handles.live, v) := by
  have hgs := get_and_set_handle_of_not_full m.core hFull
  have hfresh : m.core.handles.valid_handle (firstFreeAux m.core.handles.live) = false := by
    have hff := firstFreeAux_not_live m.core.handles.live
    exact hff
  have hne : firstFreeAux m.core.handles.live ≠ s_old := by
    intro e
    rw [e, hLive] at hfresh
    exact Bool.true_eq_false.mp hfresh
  refine ⟨?_, hfresh, hne, ?_, ?_, ?_, ?_⟩
  · simp [MatchUnitExact.add_entry, hgs]
  · simp [MatchUnitExact.add_entry, hgs, mapFind_mapInsert_self]
  · have hstep : (m.add_entry mk v prio).2.2.core.handles.valid_handle s_old
        = (setIdx m.core.handles.live (firstFreeAux m.core.handles.live) true).getD s_old false := by
      simp [MatchUnitExact.add_entry, hgs, HandleMgr.valid_handle]
    rw [hstep, getD_setIdx_ne true m.core.handles.live _ s_old hne]
    exact hLive
  · simp [MatchUnitExact.add_entry, hgs]
  · have hstep : (m.add_entry mk v prio).2.2 =
        { core := { m.core with
            handles := ⟨setIdx m.core.handles.live (firstFreeAux m.core.handles.live) true⟩
            num_entries := m.core.num_entries + 1 }
          entries := m.entries.set (firstFreeAux m.core.handles.live)
            ⟨exactNewKey mk, v,
              (m.entries.getD (firstFreeAux m.core.handles.live) default).version⟩
          entries_map := mapInsert m.entries_map (exactNewKey mk)
            (firstFreeAux m.core.handles.live) } := by
      simp [MatchUnitExact.add_entry, hgs]
    rw [hstep]
    simp only [MatchUnitExact.lookup_key,
      mapFind_mapInsert_self m.entries_map (exactNewKey mk)
        (firstFreeAux m.core.handles.live)]
    rw [getD_set_self _ _ _ _ hlen]

/-- Scenario for C8's witness: one live entry with key `[10]` at slot 0. -/
def c8Unit : MatchUnitExact Nat :=
  ⟨⟨2, 1, 1, ⟨[true]⟩⟩, [⟨[10], 100, 0⟩, default], [([10], 0)]⟩

/-- C8 witness: adding key `[10]` again on `c8Unit`. -/
theorem claim_C8_witness :
    (c8Unit.add_entry [⟨ParamType.EXACT, [10], [], 0⟩] 200 0).1 = SUCCESS ∧
    mapFind (c8Unit.add_entry [⟨ParamType.EXACT, [10], [], 0⟩] 200 0).2.2.entries_map
      (exactNewKey [⟨ParamType.EXACT, [10], [], 0⟩]) = some 1 ∧
    (c8Unit.add_entry [⟨ParamType.EXACT, [10], [], 0⟩] 200 0).2.2.core.handles.valid_handle 0
      = true ∧
    (c8Unit.add_entry [⟨ParamType.EXACT, [10], [], 0⟩] 200 0).2.2.core.num_entries = 2 := by
  have h := claim_C8_duplicate_key c8Unit [⟨ParamType.EXACT, [10], [], 0⟩] 200 0 0
    (by decide) (by decide) (by decide) (by decide)
  exact ⟨h.1, h.2.2.2.1, h.2.2.2.2.1, h.2.2.2.2.2.1⟩

/-! ### Claim C9 -/

/-- C9: confirmed — the ternary scan's running maximum starts at `0` and an
entry is only considered when its priority strictly exceeds it, so
`lookup_key` never returns an entry whose priority is `≤ 0`, even when it is
the only matching entry. -/
theorem claim_C9_priority_zero {V : Type} [Inhabited V]
    (m : MatchUnitTernary V) (k : List Nat) (s : Nat) (v : V)
    (hl : m.lookup_key k = some (s, v)) :
    0 < (m.entries.getD s default).priority := by
  rcases ternaryScanGo_spec m.entries m.core.nbytes_key k m.core.handles.iter 0 none with
    ⟨h1, _⟩ | ⟨l1, s', l2, _, _, hgt, hres, _, _⟩
  · rw [MatchUnitTernary.lookup_key, h1] at hl
    simp at hl
  · rw [MatchUnitTernary.lookup_key, hres] at hl
    simp only [Option.some.injEq, Prod.mk.injEq] at hl
    obtain ⟨hs, _⟩ := hl
    rw [← hs]
    exact hgt

/-- Scenario for C9's witness: two live entries; slot 1 (mask 0, priority 10)
matches everything. -/
def c9Unit : MatchUnitTernary Nat :=
  ⟨⟨2, 1, 2, ⟨[true, true]⟩⟩,
    [⟨[0x12], [0xFF], 5, 100, 0⟩, ⟨[0x00], [0x00], 10, 200, 0⟩]⟩

/-- C9 witness: the lookup on `c9Unit` returns slot 1, whose priority is
positive. -/
theorem claim_C9_witness : 0 < (c9Unit.entries.getD 1 default).priority :=
  claim_C9_priority_zero c9Unit [0x12] 1 200 (by decide)

/-! ### Claim C3 -/

/-- Scenario for C3: a single live entry whose mask is all-zero (it matches
every key) but whose priority is 0. -/
def c3Unit : MatchUnitTernary Nat :=
  ⟨⟨1, 1, 1, ⟨[true]⟩⟩, [⟨[0x00], [0x00], 0, 100, 0⟩]⟩

/-- C3: counterexample — slot 0 is live and matches the key `[0x55]`, so by
the claim `lookup_key` should return it (it is the only matching live entry,
hence trivially of strictly greatest priority); the code returns the empty
result because the entry's priority 0 does not strictly exceed the scan's
initial running maximum 0. -/
theorem claim_C3_counterexample :
    c3Unit.core.handles.iter = [0] ∧
    ternary_match c3Unit.core.nbytes_key (c3Unit.entries.getD 0 default) [0x55] = true ∧
    (c3Unit.entries.getD 0 default).priority = 0 ∧
    c3Unit.lookup_key [0x55] = none := by
  decide

/-- C3 (amended): an installed entry matches `k` iff every byte satisfies
`entry.key[i] = k[i] & entry.mask[i]`; `lookup_key` returns a matching entry
with positive priority that is strictly greatest among all matching live
entries, and on ties the first such entry in the allocator's iteration
order; it returns the empty result iff no matching live entry has positive
priority (entries with priority `≤ 0` are never selected). -/
theorem claim_C3_amended {V : Type} [Inhabited V] (m : MatchUnitTernary V)
    (k : List Nat) (e : TernaryEntry V) (s : Nat) (v : V) :
    (ternary_match m.core.nbytes_key e k = true ↔
      ∀ i < m.core.nbytes_key,
        e.key.getD i 0 = Nat.land (k.getD i 0) (e.mask.getD i 0)) ∧
    (m.lookup_key k = some (s, v) →
      s ∈ m.core.handles.iter ∧
      ternary_match m.core.nbytes_key (m.entries.getD s default) k = true ∧
      0 < (m.entries.getD s default).priority ∧
      v = (m.entries.getD s default).value ∧
      ∀ t ∈ m.core.handles.iter,
        ternary_match m.core.nbytes_key (m.entries.getD t default) k = true →
          ((m.entries.getD t default).priority < (m.entries.getD s default).priority ∨
            ((m.entries.getD t default).priority = (m.entries.getD s default).priority ∧
              idxOf s m.core.handles.iter ≤ idxOf t m.core.handles.iter))) ∧
    (m.lookup_key k = none ↔
      ∀ t ∈ m.core.handles.iter,
        ternary_match m.core.nbytes_key (m.entries.getD t default) k = true →
          (m.entries.getD t default).priority ≤ 0) := by
  refine ⟨?_, ?_, ?_⟩
  · simp [ternary_match, List.all_eq_true, List.mem_range]
  · intro hl
    rcases ternaryScanGo_spec m.entries m.core.nbytes_key k m.core.handles.iter 0 none with
      ⟨h1, _⟩ | ⟨l1, s', l2, heq, hm, hgt, hres, hl1, hl2⟩
    · rw [MatchUnitTernary.lookup_key, h1] at hl
      simp at hl
    · rw [MatchUnitTernary.lookup_key, hres] at hl
      simp only [Option.some.injEq, Prod.mk.injEq] at hl
      obtain ⟨hs, hv⟩ := hl
      subst hs
      have hsnotl1 : s' ∉ l1 := fun hmem => lt_irrefl _ (hl1 s' hmem hm)
      refine ⟨?_, hm, hgt, hv.symm, ?_⟩
      · rw [heq]
        exact List.mem_append_right _ (List.mem_cons_self _ _)
      · intro t ht hmt
        rw [heq] at ht
        rcases List.mem_append.1 ht with htl1 | htcons
        · exact Or.inl (hl1 t htl1 hmt)
        · rcases List.mem_cons.1 htcons with rfl | htl2
          · exact Or.inr ⟨rfl, le_refl _⟩
          · rcases lt_or_eq_of_le (hl2 t htl2 hmt) with hlt | heqp
            · exact Or.inl hlt
            · refine Or.inr ⟨heqp, ?_⟩
              have htnotl1 : t ∉ l1 := fun hmem => by
                have hx := hl1 t hmem hmt
                rw [heqp] at hx
                exact lt_irrefl _ hx
              calc idxOf s' m.core.handles.iter ≤ l1.length := by
                    rw [heq]; exact idxOf_append_self_le l1 l2 s'
                _ ≤ idxOf t m.core.handles.iter := by
                    rw [heq]; exact length_le_idxOf l1 (s' :: l2) t htnotl1
  · constructor
    · intro hnone
      rcases ternaryScanGo_spec m.entries m.core.nbytes_key k m.core.handles.iter 0 none with
        ⟨_, h2⟩ | ⟨l1, s', l2, heq, hm, hgt, hres, _, _⟩
      · exact h2
      · exfalso
        rw [MatchUnitTernary.lookup_key, hres] at hnone
        simp at hnone
    · intro hall
      rcases ternaryScanGo_spec m.entries m.core.nbytes_key k m.core.handles.iter 0 none with
        ⟨h1, _⟩ | ⟨l1, s', l2, heq, hm, hgt, _, _, _⟩
      · rw [MatchUnitTernary.lookup_key, h1]
      · exfalso
        have hmem : s' ∈ m.core.handles.iter := by
          rw [heq]
          exact List.mem_append_right _ (List.mem_cons_self _ _)
        exact absurd hgt (not_lt.2 (hall s' hmem hm))

/-- Scenario for C3's witness: two live entries that both match `[0x12]`,
with priorities 5 and 10. -/
def c3wUnit : MatchUnitTernary Nat :=
  ⟨⟨2, 1, 2, ⟨[true, true]⟩⟩,
    [⟨[0x12], [0xFF], 5, 100, 0⟩, ⟨[0x00], [0x00], 10, 200, 0⟩]⟩

/-- C3 witness: the amended theorem applied to `c3wUnit`, whose lookup
returns slot 1 (priority 10, which beats the matching priority-5 entry). -/
theorem claim_C3_amended_witness :
    1 ∈ c3wUnit.core.handles.iter ∧
    ternary_match c3wUnit.core.nbytes_key (c3wUnit.entries.getD 1 default) [0x12] = true ∧
    0 < (c3wUnit.entries.getD 1 default).priority ∧
    (200 : Nat) = (c3wUnit.entries.getD 1 default).value := by
  have h := (claim_C3_amended c3wUnit [0x12] default 1 200).2.1 (by decide)
  exact ⟨h.1, h.2.1, h.2.2.1, h.2.2.2.1⟩

/-! ### Claim C10 -/

/-- C10: confirmed — in every variant, whenever `delete_entry` or
`modify_entry` returns `INVALID_HANDLE` or `EXPIRED_HANDLE` the unit state is
returned unchanged (both returns happen before any mutation), and
`get_value` never changes the unit state at all (so in particular its error
returns leave the state unchanged). -/
theorem claim_C10_error_paths {V : Type} [Inhabited V] :
    (∀ (m : MatchUnitExact V) (h : Nat),
      (m.delete_entry h).1 = INVALID_HANDLE ∨ (m.delete_entry h).1 = EXPIRED_HANDLE →
        (m.delete_entry h).2 = m) ∧
    (∀ (m : MatchUnitExact V) (h : Nat) (v : V),
      (m.modify_entry h v).1 = INVALID_HANDLE ∨ (m.modify_entry h v).1 = EXPIRED_HANDLE →
        (m.modify_entry h v).2 = m) ∧
    (∀ (m : MatchUnitExact V) (h : Nat), (m.get_value h).2.2 = m) ∧
    (∀ (m : MatchUnitLPM V) (h : Nat),
      (m.delete_entry h).1 = INVALID_HANDLE ∨ (m.delete_entry h).1 = EXPIRED_HANDLE →
        (m.delete_entry h).2 = m) ∧
    (∀ (m : MatchUnitLPM V) (h : Nat) (v : V),
      (m.modify_entry h v).1 = INVALID_HANDLE ∨ (m.modify_entry h v).1 = EXPIRED_HANDLE →
        (m.modify_entry h v).2 = m) ∧
    (∀ (m : MatchUnitLPM V) (h : Nat), (m.get_value h).2.2 = m) ∧
    (∀ (m : MatchUnitTernary V) (h : Nat),
      (m.delete_entry h).1 = INVALID_HANDLE ∨ (m.delete_entry h).1 = EXPIRED_HANDLE →
        (m.delete_entry h).2 = m) ∧
    (∀ (m : MatchUnitTernary V) (h : Nat) (v : V),
      (m.modify_entry h v).1 = INVALID_HANDLE ∨ (m.modify_entry h v).1 = EXPIRED_HANDLE →
        (m.modify_entry h v).2 = m) ∧
    (∀ (m : MatchUnitTernary V) (h : Nat), (m.get_value h).2.2 = m) := by
  refine ⟨?_, ?_, ?_, ?_, ?_, ?_, ?_, ?_, ?_⟩
  · intro m h hc
    by_cases h1 : m.core.valid_handle_ (HANDLE_INTERNAL h) = false
    · have hres : m.delete_entry h = (INVALID_HANDLE, m) := by
        simp only [MatchUnitExact.delete_entry]
        rw [if_pos h1]
      rw [hres]
    · have h1t : m.core.valid_handle_ (HANDLE_INTERNAL h) = true := by
        cases hb : m.core.valid_handle_ (HANDLE_INTERNAL h)
        · exact absurd hb h1
        · rfl
      by_cases h2 : HANDLE_VERSION h ≠ (m.entries.getD (HANDLE_INTERNAL h) default).version
      · have hres : m.delete_entry h = (EXPIRED_HANDLE, m) := by
          simp only [MatchUnitExact.delete_entry]
          rw [if_neg (by simp [h1t]), if_pos h2]
        rw [hres]
      · have hs : (m.delete_entry h).1 = SUCCESS := by
          simp only [MatchUnitExact.delete_entry]
          rw [if_neg (by simp [h1t]), if_neg h2]
          simp [unset_handle_of_valid m.core (HANDLE_INTERNAL h) h1t]
        rcases hc with hc | hc <;> rw [hs] at hc <;> simp at hc
  · intro m h v hc
    by_cases h1 : m.core.valid_handle_ (HANDLE_INTERNAL h) = false
    · have hres : m.modify_entry h v = (INVALID_HANDLE, m) := by
        simp only [MatchUnitExact.modify_entry]
        rw [if_pos h1]
      rw [hres]
    · by_cases h2 : HANDLE_VERSION h ≠ (m.entries.getD (HANDLE_INTERNAL h) default).version
      · have hres : m.modify_entry h v = (EXPIRED_HANDLE, m) := by
          simp only [MatchUnitExact.modify_entry]
          rw [if_neg h1, if_pos h2]
        rw [hres]
      · have hs : (m.modify_entry h v).1 = SUCCESS := by
          simp only [MatchUnitExact.modify_entry]
          rw [if_neg h1, if_neg h2]
        rcases hc with hc | hc <;> rw [hs] at hc <;> simp at hc
  · intro m h
    simp only [MatchUnitExact.get_value]
    split
    · rfl
    · split
      · rfl
      · rfl
  · intro m h hc
    by_cases h1 : m.core.valid_handle_ (HANDLE_INTERNAL h) = false
    · have hres : m.delete_entry h = (INVALID_HANDLE, m) := by
        simp only [MatchUnitLPM.delete_entry]
        rw [if_pos h1]
      rw [hres]
    · have h1t : m.core.valid_handle_ (HANDLE_INTERNAL h) = true := by
        cases hb : m.core.valid_handle_ (HANDLE_INTERNAL h)
        · exact absurd hb h1
        · rfl
      by_cases h2 : HANDLE_VERSION h ≠ (m.entries.getD (HANDLE_INTERNAL h) default).version
      · have hres : m.delete_entry h = (EXPIRED_HANDLE, m) := by
          simp only [MatchUnitLPM.delete_entry]
          rw [if_neg (by simp [h1t]), if_pos h2]
        rw [hres]
      · have hs : (m.delete_entry h).1 = SUCCESS := by
          simp only [MatchUnitLPM.delete_entry]
          rw [if_neg (by simp [h1t]), if_neg h2]
          simp [unset_handle_of_valid m.core (HANDLE_INTERNAL h) h1t]
        rcases hc with hc | hc <;> rw [hs] at hc <;> simp at hc
  · intro m h v hc
    by_cases h1 : m.core.valid_handle_ (HANDLE_INTERNAL h) = false
    · have hres : m.modify_entry h v = (INVALID_HANDLE, m) := by
        simp only [MatchUnitLPM.modify_entry]
        rw [if_pos h1]
      rw [hres]
    · by_cases h2 : HANDLE_VERSION h ≠ (m.entries.getD (HANDLE_INTERNAL h) default).version
      · have hres : m.modify_entry h v = (EXPIRED_HANDLE, m) := by
          simp only [MatchUnitLPM.modify_entry]
          rw [if_neg h1, if_pos h2]
        rw [hres]
      · have hs : (m.modify_entry h v).1 = SUCCESS := by
          simp only [MatchUnitLPM.modify_entry]
          rw [if_neg h1, if_neg h2]
        rcases hc with hc | hc <;> rw [hs] at hc <;> simp at hc
  · intro m h
    simp only [MatchUnitLPM.get_value]
    split
    · rfl
    · split
      · rfl
      · rfl
  · intro m h hc
    by_cases h1 : m.core.valid_handle_ (HANDLE_INTERNAL h) = false
    · have hres : m.delete_entry h = (INVALID_HANDLE, m) := by
        simp only [MatchUnitTernary.delete_entry]
        rw [if_pos h1]
      rw [hres]
    · have h1t : m.core.valid_handle_ (HANDLE_INTERNAL h) = true := by
        cases hb : m.core.valid_handle_ (HANDLE_INTERNAL h)
        · exact absurd hb h1
        · rfl
      by_cases h2 : HANDLE_VERSION h ≠ (m.entries.getD (HANDLE_INTERNAL h) default).version
      · have hres : m.delete_entry h = (EXPIRED_HANDLE, m) := by
          simp only [MatchUnitTernary.delete_entry]
          rw [if_neg (by simp [h1t]), if_pos h2]
        rw [hres]
      · have hs : (m.delete_entry h).1 = SUCCESS := by
          simp only [MatchUnitTernary.delete_entry]
          rw [if_neg (by simp [h1t]), if_neg h2]
          simp [unset_handle_of_valid m.core (HANDLE_INTERNAL h) h1t]
        rcases hc with hc | hc <;> rw [hs] at hc <;> simp at hc
  · intro m h v hc
    by_cases h1 : m.core.valid_handle (HANDLE_INTERNAL h) = false
    · have hres : m.modify_entry h v = (INVALID_HANDLE, m) := by
        simp only [MatchUnitTernary.modify_entry]
        rw [if_pos h1]
      rw [hres]
    · by_cases h2 : HANDLE_VERSION h ≠ (m.entries.getD (HANDLE_INTERNAL h) default).version
      · have hres : m.modify_entry h v = (EXPIRED_HANDLE, m) := by
          simp only [MatchUnitTernary.modify_entry]
          rw [if_neg h1, if_pos h2]
        rw [hres]
      · have hs : (m.modify_entry h v).1 = SUCCESS := by
          simp only [MatchUnitTernary.modify_entry]
          rw [if_neg h1, if_neg h2]
        rcases hc with hc | hc <;> rw [hs] at hc <;> simp at hc
  · intro m h
    simp only [MatchUnitTernary.get_value]
    split
    · rfl
    · split
      · rfl
      · rfl

/-- Scenario for C10's witness: an empty exact unit; every handle is
invalid. -/
def c10Unit : MatchUnitExact Nat := ⟨⟨1, 1, 0, ⟨[]⟩⟩, [default], []⟩

/-- C10 witness: deleting the invalid handle 5 on `c10Unit` leaves the unit
unchanged. -/
theorem claim_C10_witness : (c10Unit.delete_entry 5).2 = c10Unit :=
  (claim_C10_error_paths (V := Nat)).1 c10Unit 5 (Or.inl (by decide))

end MatchUnits
